import Mathlib

/-
Verification of the bit-level DNS-header decoder of the `nom-lessons`
repository (crates `dns_header` and `bitstreams_with_nom`).

The embedding models bytes as `Fin 256` (Rust `u8`), and a nom bit cursor
`BitInput = (&[u8], usize)` as a pair of the remaining byte suffix and the
bit offset (0..7) inside its first byte.  Parser outcomes are modelled by
`PResult`: `ok` / `err` mirror nom's `Ok` / `Err(Err::Error(Error{input,
code}))` (nom's default error type keeps only the input position and an
`ErrorKind`), and `panicked` models a Rust `panic!` / failed `assert!`.

`take` is translated from nom 7's `nom::bits::complete::take`: the length
check (`ErrorKind::Eof` on too-little input, cursor not advanced), the byte
loop accumulating most-significant-bit first (`takeLoop`, translated from
the `for byte in input.iter_elements().take(cnt + 1)` loop with the
`(byte << offset) >> offset` mask written as `% 2 ^ (8 - offset)`), and the
result cursor `(input.slice(cnt..), end_offset)` with
`cnt = (count + bit_offset) / 8` and `end_offset = (count + bit_offset) % 8`
(the loop's incremental `end_offset` bookkeeping equals this closed form for
offsets 0..7).  `tag` is translated from `nom::bits::complete::tag`
(`ErrorKind::TagBits` at the pre-read position on mismatch), and `map_res`
from `nom::combinator::map_res` (`ErrorKind::MapRes` at the input position
before the inner parser ran; the external error value is discarded by nom's
default error type).
-/

/-- The nom `ErrorKind` values reachable in this code base. -/
inductive ErrorKind where
  | Eof
  | MapRes
  | TagBits
  deriving DecidableEq

/-- A Rust `u8`. -/
abbrev Byte := Fin 256

abbrev Bytes := List Byte

/-- `type BitInput<'a> = (&'a [u8], usize);` — remaining bytes plus the bit
offset into the first remaining byte. -/
abbrev BitInput := Bytes × Nat

/-- Outcome of a nom parser in this code base: success with the new cursor,
a nom error (`Err::Error(Error { input, code })`), or a Rust panic
(from `assert!`). -/
inductive PResult (α : Type) where
  | ok : BitInput → α → PResult α
  | err : BitInput → ErrorKind → PResult α
  | panicked : PResult α
  deriving DecidableEq

/-- The `?` operator on `IResult`: propagate errors (and panics). -/
def PResult.bind {α β : Type} : PResult α → (BitInput → α → PResult β) → PResult β
  | .ok i a, f => f i a
  | .err c k, _ => .err c k
  | .panicked, _ => .panicked

/-- The bit of `l` at absolute bit position `k`, most-significant bit of each
byte first; 0 beyond the end of the list. -/
def bitAt (l : Bytes) (k : Nat) : Nat :=
  match l[k / 8]? with
  | some b => b.val / 2 ^ (7 - k % 8) % 2
  | none => 0

/-- The unsigned integer formed by the `n` bits of `l` starting at absolute
bit position `p`, read most-significant-bit first (`value = value*2 + bit`). -/
def readBits (l : Bytes) (p : Nat) : Nat → Nat
  | 0 => 0
  | n + 1 => readBits l p n * 2 + bitAt l (p + n)

/-- The accumulator loop of nom 7's `bits::complete::take`, translated
byte-for-byte:  `acc` / `offset` / `remaining` are the loop state, the
masked byte `(byte << offset) >> offset` is `b.val % 2 ^ (8 - offset)`. -/
def takeLoop (acc offset remaining : Nat) : Bytes → Nat
  | [] => acc
  | b :: rest =>
    if remaining = 0 then acc
    else
      if remaining < 8 - offset then
        acc * 2 ^ remaining + b.val % 2 ^ (8 - offset) / 2 ^ (8 - offset - remaining)
      else
        takeLoop (acc * 2 ^ (8 - offset) + b.val % 2 ^ (8 - offset)) 0
          (remaining - (8 - offset)) rest

/-- nom 7's `nom::bits::complete::take`: `count = 0` succeeds with 0 and an
unmoved cursor; if fewer than `count` bits remain the parser fails with
`ErrorKind::Eof` at the unmoved cursor; otherwise the value is accumulated
by `takeLoop` over the first `cnt + 1` bytes and the cursor becomes
`(input.slice(cnt..), (count + bit_offset) % 8)`. -/
def take (count : Nat) (i : BitInput) : PResult Nat :=
  if count = 0 then .ok i 0
  else if i.1.length * 8 < count + i.2 then .err i .Eof
  else
    .ok (i.1.drop ((count + i.2) / 8), (count + i.2) % 8)
      (takeLoop 0 i.2 count (i.1.take ((count + i.2) / 8 + 1)))

/-- `dns_header::take_bit`: `let (i, bit): (BitInput, u8) = take(1u8)(i)?;
Ok((i, bit != 0))`. -/
def take_bit (i : BitInput) : PResult Bool :=
  match take 1 i with
  | .ok i2 bit => .ok i2 (bit != 0)
  | .err c k => .err c k
  | .panicked => .panicked

/-- `dns_header::take_nibble`: `take(4u8)(i)`. -/
def take_nibble (i : BitInput) : PResult Nat :=
  take 4 i

/-- `dns_header::take_u16`: `take(16u8)(i)`. -/
def take_u16 (i : BitInput) : PResult Nat :=
  take 16 i

/-- `nom::combinator::map_res` specialised as it is used in
`Header::deserialize`: run the parser, apply the fallible conversion, and on
conversion failure report `ErrorKind::MapRes` at the input position saved
before the parser ran (nom's default error type drops the external error). -/
def map_res {α β : Type} (p : BitInput → PResult α) (f : α → Except String β)
    (i : BitInput) : PResult β :=
  match p i with
  | .ok i2 a =>
    match f a with
    | .ok b => .ok i2 b
    | .error _ => .err i .MapRes
  | .err c k => .err c k
  | .panicked => .panicked

/-- nom 7's `nom::bits::complete::tag`: read `count` bits; succeed iff the
value equals `pattern`, otherwise fail with `ErrorKind::TagBits` at the
original (pre-read) input. -/
def tag (pattern count : Nat) (input : BitInput) : PResult Nat :=
  match take count input with
  | .ok i o => if pattern = o then .ok i o else .err input .TagBits
  | .err c k => .err c k
  | .panicked => .panicked

/-- The bit-tag wrapper of `bitstreams_with_nom` (the Rust function named
after the parsing concept it wraps): `tag(pattern, count)(input)` with the
generic parameters made concrete. -/
def tagWrapper (pattern count : Nat) (input : BitInput) : PResult Nat :=
  tag pattern count input

/-- `dns_header::Opcode`. -/
inductive Opcode where
  | Query
  | InverseQuery
  | Status
  deriving DecidableEq

/-- `impl TryFrom<u8> for Opcode`; `anyhow::bail!("Unknown opcode {other}")`
is modelled as an `Except.error` carrying the formatted message. -/
def Opcode.tryFrom (value : Nat) : Except String Opcode :=
  match value with
  | 0 => .ok .Query
  | 1 => .ok .InverseQuery
  | 2 => .ok .Status
  | other => .error ("Unknown opcode " ++ toString other)

/-- Modelled from the spec: the `ResponseCode` enum used by
`dns_header::Header` is not present under `src/` (the source comments
"ResponseCode unimplemented here"); spec §3/§4.2 define it as the enumerant
table {NoError=0, FormatError=1, ServerFailure=2, NameError=3,
NotImplemented=4, Refused=5}. -/
inductive ResponseCode where
  | NoError
  | FormatError
  | ServerFailure
  | NameError
  | NotImplemented
  | Refused
  deriving DecidableEq

/-- Modelled from the spec: `TryFrom` conversion for `ResponseCode`;
codes outside {0,...,5} fail with an Unknown ResponseCode(code) error,
mirroring `Opcode::try_from`. -/
def ResponseCode.tryFrom (value : Nat) : Except String ResponseCode :=
  match value with
  | 0 => .ok .NoError
  | 1 => .ok .FormatError
  | 2 => .ok .ServerFailure
  | 3 => .ok .NameError
  | 4 => .ok .NotImplemented
  | 5 => .ok .Refused
  | other => .error ("Unknown response code " ++ toString other)

/-- `dns_header::Header`; `u16` fields are modelled as `Nat` (all values
produced by `take_u16` are below 2^16). -/
structure Header where
  id : Nat
  is_query : Bool
  opcode : Opcode
  authoritative_answer : Bool
  truncation : Bool
  recursion_desired : Bool
  recursion_available : Bool
  resp_code : ResponseCode
  question_count : Nat
  answer_count : Nat
  name_server_count : Nat
  additional_records_count : Nat
  deriving DecidableEq

/-- `Header::deserialize`, translated statement by statement.  Note the two
faithful peculiarities of the source: `is_query` is assigned the raw `qr`
bit (no negation), and each reserved `Z` bit goes through `assert!(!z)`,
which panics (modelled by `.panicked`) instead of returning an error. -/
def Header.deserialize (i : BitInput) : PResult Header :=
  (take_u16 i).bind fun i id =>
  (take_bit i).bind fun i qr =>
  (map_res take_nibble Opcode.tryFrom i).bind fun i opcode =>
  (take_bit i).bind fun i aa =>
  (take_bit i).bind fun i tc =>
  (take_bit i).bind fun i rd =>
  (take_bit i).bind fun i ra =>
  (take_bit i).bind fun i z1 =>
  if z1 then .panicked else
  (take_bit i).bind fun i z2 =>
  if z2 then .panicked else
  (take_bit i).bind fun i z3 =>
  if z3 then .panicked else
  (map_res take_nibble ResponseCode.tryFrom i).bind fun i rcode =>
  (take_u16 i).bind fun i qdcount =>
  (take_u16 i).bind fun i ancount =>
  (take_u16 i).bind fun i nscount =>
  (take_u16 i).bind fun i arcount =>
  .ok i
    { id := id
      is_query := qr
      opcode := opcode
      authoritative_answer := aa
      truncation := tc
      recursion_desired := rd
      recursion_available := ra
      resp_code := rcode
      question_count := qdcount
      answer_count := ancount
      name_server_count := nscount
      additional_records_count := arcount }

/-- Closed-form characterisation of `Header.deserialize` started at absolute
bit position `k` of buffer `d` (proved equal to it in
`deserialize_eq_decodeAt` below): the fixed field walk with every length
check, enumerant conversion and reserved-bit assertion explicit. -/
def decodeAt (d : Bytes) (k : Nat) : PResult Header :=
  if 8 * d.length < k + 16 then .err (d.drop (k / 8), k % 8) .Eof
  else if 8 * d.length < k + 17 then .err (d.drop ((k + 16) / 8), (k + 16) % 8) .Eof
  else if 8 * d.length < k + 21 then .err (d.drop ((k + 17) / 8), (k + 17) % 8) .Eof
  else
    match Opcode.tryFrom (readBits d (k + 17) 4) with
    | .error _ => .err (d.drop ((k + 17) / 8), (k + 17) % 8) .MapRes
    | .ok op =>
      if 8 * d.length < k + 22 then .err (d.drop ((k + 21) / 8), (k + 21) % 8) .Eof
      else if 8 * d.length < k + 23 then .err (d.drop ((k + 22) / 8), (k + 22) % 8) .Eof
      else if 8 * d.length < k + 24 then .err (d.drop ((k + 23) / 8), (k + 23) % 8) .Eof
      else if 8 * d.length < k + 25 then .err (d.drop ((k + 24) / 8), (k + 24) % 8) .Eof
      else if 8 * d.length < k + 26 then .err (d.drop ((k + 25) / 8), (k + 25) % 8) .Eof
      else if readBits d (k + 25) 1 != 0 then .panicked
      else if 8 * d.length < k + 27 then .err (d.drop ((k + 26) / 8), (k + 26) % 8) .Eof
      else if readBits d (k + 26) 1 != 0 then .panicked
      else if 8 * d.length < k + 28 then .err (d.drop ((k + 27) / 8), (k + 27) % 8) .Eof
      else if readBits d (k + 27) 1 != 0 then .panicked
      else if 8 * d.length < k + 32 then .err (d.drop ((k + 28) / 8), (k + 28) % 8) .Eof
      else
        match ResponseCode.tryFrom (readBits d (k + 28) 4) with
        | .error _ => .err (d.drop ((k + 28) / 8), (k + 28) % 8) .MapRes
        | .ok rc =>
          if 8 * d.length < k + 48 then .err (d.drop ((k + 32) / 8), (k + 32) % 8) .Eof
          else if 8 * d.length < k + 64 then .err (d.drop ((k + 48) / 8), (k + 48) % 8) .Eof
          else if 8 * d.length < k + 80 then .err (d.drop ((k + 64) / 8), (k + 64) % 8) .Eof
          else if 8 * d.length < k + 96 then .err (d.drop ((k + 80) / 8), (k + 80) % 8) .Eof
          else
            .ok (d.drop ((k + 96) / 8), (k + 96) % 8)
              { id := readBits d k 16
                is_query := readBits d (k + 16) 1 != 0
                opcode := op
                authoritative_answer := readBits d (k + 21) 1 != 0
                truncation := readBits d (k + 22) 1 != 0
                recursion_desired := readBits d (k + 23) 1 != 0
                recursion_available := readBits d (k + 24) 1 != 0
                resp_code := rc
                question_count := readBits d (k + 32) 16
                answer_count := readBits d (k + 48) 16
                name_server_count := readBits d (k + 64) 16
                additional_records_count := readBits d (k + 80) 16 }

/-- Observable outcome of a decode run on original buffer `orig`: the header
and the number of bits consumed, or the error kind and the absolute bit
position it was reported at, or a panic. -/
inductive Outcome where
  | success : Header → Nat → Outcome
  | failure : ErrorKind → Nat → Outcome
  | panicked : Outcome
  deriving DecidableEq

/-- Project a `PResult Header` to its `Outcome` relative to the original
buffer `orig` (cursor positions become absolute bit positions). -/
def toOutcome (orig : Bytes) : PResult Header → Outcome
  | .ok c h => .success h ((orig.length - c.1.length) * 8 + c.2)
  | .err c k => .failure k ((orig.length - c.1.length) * 8 + c.2)
  | .panicked => .panicked

/-- The decoded header of a successful run, if any. -/
def decodedHeader : PResult Header → Option Header
  | .ok _ h => some h
  | _ => none

/-- The error kind of a failed run, if any. -/
def errKindOf : PResult Header → Option ErrorKind
  | .err _ k => some k
  | _ => none

/-- Start position (in bits) of the first header field whose bits extend past
a buffer of `bits` bits (only meaningful for `bits < 96`): field boundaries
are 0/16 (id), 16/1 (qr), 17/4 (opcode), 21,22,23,24 (flag bits),
25,26,27 (reserved bits), 28/4 (rcode), 32,48,64,80 (the four counts). -/
def failPos (bits : Nat) : Nat :=
  if bits < 16 then 0
  else if bits < 17 then 16
  else if bits < 21 then 17
  else if bits < 22 then 21
  else if bits < 23 then 22
  else if bits < 24 then 23
  else if bits < 25 then 24
  else if bits < 26 then 25
  else if bits < 27 then 26
  else if bits < 28 then 27
  else if bits < 32 then 28
  else if bits < 48 then 32
  else if bits < 64 then 48
  else if bits < 80 then 64
  else 80

/-- The spec's concrete scenario input:
`[0x00,0x01, 0x81,0x80, 0x00,0x01, 0x00,0x01, 0x00,0x00, 0x00,0x00]`. -/
def respBytes : Bytes := [0x00, 0x01, 0x81, 0x80, 0x00, 0x01, 0x00, 0x01, 0x00, 0x00, 0x00, 0x00]

/-- What the code actually produces on `respBytes` (note `is_query = true`,
the raw QR bit, and `recursion_desired = true`, the RD bit of 0x81). -/
def respHeader : Header :=
  { id := 1
    is_query := true
    opcode := .Query
    authoritative_answer := false
    truncation := false
    recursion_desired := true
    recursion_available := true
    resp_code := .NoError
    question_count := 1
    answer_count := 1
    name_server_count := 0
    additional_records_count := 0 }

/-- The header the spec's concrete scenario asserts for `respBytes`
(with `is_query = false` and `recursion_desired = false`). -/
def specClaimHeader : Header :=
  { id := 1
    is_query := false
    opcode := .Query
    authoritative_answer := false
    truncation := false
    recursion_desired := false
    recursion_available := true
    resp_code := .NoError
    question_count := 1
    answer_count := 1
    name_server_count := 0
    additional_records_count := 0 }

/-- A well-formed header except that the third reserved (Z) bit is 1
(byte 3 is 0x90 = 1001_0000: RA=1, Z=001, RCODE=0). -/
def zNonzeroBytes : Bytes := [0x00, 0x01, 0x81, 0x90, 0x00, 0x01, 0x00, 0x01, 0x00, 0x00, 0x00, 0x00]

/-- A 3-byte buffer whose opcode field holds 3 (byte 2 is 0x18 = 0001_1000:
QR=0, opcode=0011). -/
def shortBadOpcode : Bytes := [0x00, 0x00, 0x18]

/-- A 2-byte buffer: data runs out at the QR bit (bit 16). -/
def twoBytes : Bytes := [0x00, 0x01]

/-- Twelve zero bytes: a minimal well-formed header buffer. -/
def twelveZeros : Bytes := [0, 0, 0, 0, 0, 0, 0, 0, 0, 0, 0, 0]

/-- Twelve zero bytes followed by an extra 0xFF byte: agrees with
`twelveZeros` on the first 12 bytes. -/
def twelveZerosExt : Bytes := [0, 0, 0, 0, 0, 0, 0, 0, 0, 0, 0, 0, 0xFF]

theorem PResult.bind_ok {α β : Type} (i : BitInput) (a : α)
    (f : BitInput → α → PResult β) : (PResult.ok i a).bind f = f i a := rfl

theorem PResult.bind_err {α β : Type} (c : BitInput) (k : ErrorKind)
    (f : BitInput → α → PResult β) : (PResult.err c k).bind f = .err c k := rfl

theorem PResult.bind_panicked {α β : Type}
    (f : BitInput → α → PResult β) : (PResult.panicked).bind f = .panicked := rfl

theorem bitAt_drop (l : Bytes) (q r : Nat) : bitAt (l.drop q) r = bitAt l (8 * q + r) := by
  unfold bitAt
  rw [List.getElem?_drop]
  rw [show (8 * q + r) / 8 = q + r / 8 by omega, show (8 * q + r) % 8 = r % 8 by omega]

theorem bitAt_take_of_lt (l : Bytes) (m k : Nat) (h : k < 8 * m) :
    bitAt (l.take m) k = bitAt l k := by
  unfold bitAt
  rw [List.getElem?_take_of_lt (by omega : k / 8 < m)]

theorem bitAt_none (l : Bytes) (k : Nat) (h : l[k / 8]? = none) : bitAt l k = 0 := by
  unfold bitAt
  rw [h]

theorem bitAt_eq (l : Bytes) (k : Nat) (b : Byte) (h : l[k / 8]? = some b) :
    bitAt l k = b.val / 2 ^ (7 - k % 8) % 2 := by
  unfold bitAt
  rw [h]

theorem bitAt_lt_two (l : Bytes) (k : Nat) : bitAt l k < 2 := by
  cases h : l[k / 8]? with
  | none => rw [bitAt_none l k h]; omega
  | some b => rw [bitAt_eq l k b h]; exact Nat.mod_lt _ (by omega)

theorem readBits_succ (l : Bytes) (p n : Nat) :
    readBits l p (n + 1) = readBits l p n * 2 + bitAt l (p + n) := rfl

theorem readBits_drop (l : Bytes) (q r : Nat) :
    ∀ m, readBits (l.drop q) r m = readBits l (8 * q + r) m
  | 0 => rfl
  | m + 1 => by
    rw [readBits_succ, readBits_succ, readBits_drop l q r m,
      show 8 * q + r + m = 8 * q + (r + m) by omega, ← bitAt_drop]

theorem readBits_take_eq (l : Bytes) (m p : Nat) :
    ∀ n, p + n ≤ 8 * m → readBits (l.take m) p n = readBits l p n
  | 0, _ => rfl
  | n + 1, h => by
    rw [readBits_succ, readBits_succ, readBits_take_eq l m p n (by omega),
      bitAt_take_of_lt l m (p + n) (by omega)]

theorem readBits_agree {d1 d2 : Bytes} (m : Nat) (hag : d1.take m = d2.take m)
    (p n : Nat) (h : p + n ≤ 8 * m) : readBits d1 p n = readBits d2 p n := by
  rw [← readBits_take_eq d1 m p n h, hag, readBits_take_eq d2 m p n h]

theorem readBits_split (l : Bytes) (p a : Nat) :
    ∀ m, readBits l p (a + m) = readBits l p a * 2 ^ m + readBits l (p + a) m
  | 0 => by simp [readBits]
  | m + 1 => by
    rw [show a + (m + 1) = (a + m) + 1 by omega, readBits_succ, readBits_succ,
      readBits_split l p a m, show p + (a + m) = p + a + m by omega, pow_succ]
    ring

theorem readBits_lt (l : Bytes) (p : Nat) : ∀ n, readBits l p n < 2 ^ n
  | 0 => by simp [readBits]
  | n + 1 => by
    have h1 := readBits_lt l p n
    have h2 := bitAt_lt_two l (p + n)
    rw [readBits_succ, pow_succ]
    omega

theorem mod_pow_div (a m k : Nat) (h : k ≤ m) :
    a % 2 ^ m / 2 ^ k = a / 2 ^ k % 2 ^ (m - k) := by
  have h2 : (2 : Nat) ^ m = 2 ^ k * 2 ^ (m - k) := by
    rw [← pow_add]
    congr 1
    omega
  rw [h2, Nat.mod_mul_right_div_self]

theorem readBits_head (b : Byte) (t : Bytes) (off : Nat) :
    ∀ rem, off + rem ≤ 8 →
      readBits (b :: t) off rem = b.val / 2 ^ (8 - off - rem) % 2 ^ rem
  | 0, _ => by simp [readBits, Nat.mod_one]
  | rem + 1, h => by
    rw [readBits_succ, readBits_head b t off rem (by omega)]
    have hb : bitAt (b :: t) (off + rem) = b.val / 2 ^ (7 - off - rem) % 2 := by
      rw [bitAt_eq (b :: t) (off + rem) b
        (by rw [show (off + rem) / 8 = 0 by omega]; exact List.getElem?_cons_zero)]
      rw [show 7 - (off + rem) % 8 = 7 - off - rem by omega]
    rw [hb]
    have he : 8 - off - (rem + 1) = 7 - off - rem := by omega
    rw [he]
    set e := 7 - off - rem with hedef
    have hx : b.val / 2 ^ (8 - off - rem) = b.val / 2 ^ e / 2 := by
      rw [Nat.div_div_eq_div_mul, ← pow_succ, show e + 1 = 8 - off - rem by omega]
    rw [hx]
    set x := b.val / 2 ^ e with hxdef
    have h1 : x % (2 * 2 ^ rem) / 2 = x / 2 % 2 ^ rem := Nat.mod_mul_right_div_self x 2 (2 ^ rem)
    have h2 : x % (2 * 2 ^ rem) % 2 = x % 2 := Nat.mod_mod_of_dvd x ⟨2 ^ rem, rfl⟩
    have h3 : (2 : Nat) ^ (rem + 1) = 2 * 2 ^ rem := by ring
    have h4 := Nat.div_add_mod (x % (2 * 2 ^ rem)) 2
    have h5 : x % (2 * 2 ^ rem) < 2 * 2 ^ rem := Nat.mod_lt _ (by positivity)
    rw [h3]
    omega

theorem takeLoop_cons (acc off rem : Nat) (b : Byte) (t : Bytes) :
    takeLoop acc off rem (b :: t) =
      if rem = 0 then acc
      else if rem < 8 - off then
        acc * 2 ^ rem + b.val % 2 ^ (8 - off) / 2 ^ (8 - off - rem)
      else takeLoop (acc * 2 ^ (8 - off) + b.val % 2 ^ (8 - off)) 0
        (rem - (8 - off)) t := rfl

theorem takeLoop_correct :
    ∀ (bytes : Bytes) (acc off rem : Nat), off < 8 → off + rem ≤ 8 * bytes.length →
      takeLoop acc off rem bytes = acc * 2 ^ rem + readBits bytes off rem
  | [], acc, off, rem, _, hav => by
    have h0 : rem = 0 := by simp at hav; omega
    subst h0
    simp [takeLoop, readBits]
  | b :: t, acc, off, rem, hoff, hav => by
    by_cases hrem : rem = 0
    · subst hrem
      simp [takeLoop, readBits]
    · by_cases hsmall : rem < 8 - off
      · rw [takeLoop_cons, if_neg hrem, if_pos hsmall]
        congr 1
        rw [readBits_head b t off rem (by omega)]
        rw [mod_pow_div _ _ _ (by omega : 8 - off - rem ≤ 8 - off),
          show 8 - off - (8 - off - rem) = rem by omega]
      · rw [takeLoop_cons, if_neg hrem, if_neg hsmall]
        rw [takeLoop_correct t _ 0 (rem - (8 - off)) (by omega)
          (by simp at hav ⊢; omega)]
        have hs : rem = (8 - off) + (rem - (8 - off)) := by omega
        rw [show readBits (b :: t) off rem
            = readBits (b :: t) off ((8 - off) + (rem - (8 - off))) by rw [← hs]]
        rw [readBits_split]
        have hh : readBits (b :: t) off (8 - off) = b.val % 2 ^ (8 - off) := by
          rw [readBits_head b t off (8 - off) (by omega)]
          rw [show 8 - off - (8 - off) = 0 by omega, pow_zero, Nat.div_one]
        have ht : readBits (b :: t) (off + (8 - off)) (rem - (8 - off))
            = readBits t 0 (rem - (8 - off)) := by
          have h8 : off + (8 - off) = 8 * 1 + 0 := by omega
          rw [h8, ← readBits_drop (b :: t) 1 0]
          rfl
        rw [hh, ht]
        have hp : (2 : Nat) ^ rem = 2 ^ (8 - off) * 2 ^ (rem - (8 - off)) := by
          rw [← pow_add, show 8 - off + (rem - (8 - off)) = rem by omega]
        rw [hp]
        ring

theorem take_at (n : Nat) (hn : 1 ≤ n) (d : Bytes) (p : Nat) :
    take n (d.drop (p / 8), p % 8) =
      if 8 * d.length < p + n then .err (d.drop (p / 8), p % 8) .Eof
      else .ok (d.drop ((p + n) / 8), (p + n) % 8) (readBits d p n) := by
  have hlen : (d.drop (p / 8)).length = d.length - p / 8 := List.length_drop _ _
  unfold take
  rw [if_neg (by omega : ¬ n = 0)]
  by_cases hc : 8 * d.length < p + n
  · rw [if_pos (show ((d.drop (p / 8), p % 8) : BitInput).1.length * 8 < n + ((d.drop (p / 8), p % 8) : BitInput).2 by rw [hlen]; omega),
      if_pos hc]
  · rw [if_neg (show ¬ ((d.drop (p / 8), p % 8) : BitInput).1.length * 8 < n + ((d.drop (p / 8), p % 8) : BitInput).2 by rw [hlen]; omega),
      if_neg hc]
    have hcur : (d.drop (p / 8)).drop ((n + p % 8) / 8) = d.drop ((p + n) / 8) := by
      rw [List.drop_drop, show p / 8 + (n + p % 8) / 8 = (p + n) / 8 by omega]
    have hoff : (n + p % 8) % 8 = (p + n) % 8 := by omega
    have hval : takeLoop 0 (p % 8) n ((d.drop (p / 8)).take ((n + p % 8) / 8 + 1))
        = readBits d p n := by
      rw [takeLoop_correct ((d.drop (p / 8)).take ((n + p % 8) / 8 + 1)) 0 (p % 8) n
        (Nat.mod_lt _ (by omega)) (by rw [List.length_take, hlen]; omega)]
      rw [zero_mul, zero_add]
      rw [readBits_take_eq (d.drop (p / 8)) ((n + p % 8) / 8 + 1) (p % 8) n (by omega)]
      rw [readBits_drop d (p / 8) (p % 8) n]
      rw [show 8 * (p / 8) + p % 8 = p by omega]
    rw [hcur, hoff, hval]

theorem take_bit_at (d : Bytes) (p : Nat) :
    take_bit (d.drop (p / 8), p % 8) =
      if 8 * d.length < p + 1 then .err (d.drop (p / 8), p % 8) .Eof
      else .ok (d.drop ((p + 1) / 8), (p + 1) % 8) (readBits d p 1 != 0) := by
  unfold take_bit
  rw [take_at 1 (by omega) d p]
  by_cases hc : 8 * d.length < p + 1
  · rw [if_pos hc, if_pos hc]
  · rw [if_neg hc, if_neg hc]

theorem take_nibble_at (d : Bytes) (p : Nat) :
    take_nibble (d.drop (p / 8), p % 8) =
      if 8 * d.length < p + 4 then .err (d.drop (p / 8), p % 8) .Eof
      else .ok (d.drop ((p + 4) / 8), (p + 4) % 8) (readBits d p 4) :=
  take_at 4 (by omega) d p

theorem take_u16_at (d : Bytes) (p : Nat) :
    take_u16 (d.drop (p / 8), p % 8) =
      if 8 * d.length < p + 16 then .err (d.drop (p / 8), p % 8) .Eof
      else .ok (d.drop ((p + 16) / 8), (p + 16) % 8) (readBits d p 16) :=
  take_at 16 (by omega) d p

theorem map_res_nibble_at {β : Type} (f : Nat → Except String β) (d : Bytes) (p : Nat) :
    map_res take_nibble f (d.drop (p / 8), p % 8) =
      if 8 * d.length < p + 4 then .err (d.drop (p / 8), p % 8) .Eof
      else
        match f (readBits d p 4) with
        | .ok b => .ok (d.drop ((p + 4) / 8), (p + 4) % 8) b
        | .error _ => .err (d.drop (p / 8), p % 8) .MapRes := by
  unfold map_res
  rw [take_nibble_at d p]
  by_cases hc : 8 * d.length < p + 4
  · rw [if_pos hc, if_pos hc]
  · rw [if_neg hc, if_neg hc]

theorem deserialize_eq_decodeAt (d : Bytes) (k : Nat) :
    Header.deserialize (d.drop (k / 8), k % 8) = decodeAt d k := by
  have e1 : k + 16 + 1 = k + 17 := by omega
  have e2 : k + 17 + 4 = k + 21 := by omega
  have e3 : k + 21 + 1 = k + 22 := by omega
  have e4 : k + 22 + 1 = k + 23 := by omega
  have e5 : k + 23 + 1 = k + 24 := by omega
  have e6 : k + 24 + 1 = k + 25 := by omega
  have e7 : k + 25 + 1 = k + 26 := by omega
  have e8 : k + 26 + 1 = k + 27 := by omega
  have e9 : k + 27 + 1 = k + 28 := by omega
  have e10 : k + 28 + 4 = k + 32 := by omega
  have e11 : k + 32 + 16 = k + 48 := by omega
  have e12 : k + 48 + 16 = k + 64 := by omega
  have e13 : k + 64 + 16 = k + 80 := by omega
  have e14 : k + 80 + 16 = k + 96 := by omega
  unfold Header.deserialize decodeAt
  rw [take_u16_at d k]
  by_cases h1 : 8 * d.length < k + 16
  · rw [if_pos h1, if_pos h1, PResult.bind_err]
  · simp only [if_neg h1, PResult.bind_ok]
    rw [take_bit_at d (k + 16), e1]
    by_cases h2 : 8 * d.length < k + 17
    · rw [if_pos h2, if_pos h2, PResult.bind_err]
    · simp only [if_neg h2, PResult.bind_ok]
      rw [map_res_nibble_at Opcode.tryFrom d (k + 17), e2]
      by_cases h3 : 8 * d.length < k + 21
      · rw [if_pos h3, if_pos h3, PResult.bind_err]
      · simp only [if_neg h3]
        cases hop : Opcode.tryFrom (readBits d (k + 17) 4) with
        | error e => rfl
        | ok op =>
          dsimp only
          simp only [PResult.bind_ok]
          rw [take_bit_at d (k + 21), e3]
          by_cases h4 : 8 * d.length < k + 22
          · rw [if_pos h4, if_pos h4, PResult.bind_err]
          · simp only [if_neg h4, PResult.bind_ok]
            rw [take_bit_at d (k + 22), e4]
            by_cases h5 : 8 * d.length < k + 23
            · rw [if_pos h5, if_pos h5, PResult.bind_err]
            · simp only [if_neg h5, PResult.bind_ok]
              rw [take_bit_at d (k + 23), e5]
              by_cases h6 : 8 * d.length < k + 24
              · rw [if_pos h6, if_pos h6, PResult.bind_err]
              · simp only [if_neg h6, PResult.bind_ok]
                rw [take_bit_at d (k + 24), e6]
                by_cases h7 : 8 * d.length < k + 25
                · rw [if_pos h7, if_pos h7, PResult.bind_err]
                · simp only [if_neg h7, PResult.bind_ok]
                  rw [take_bit_at d (k + 25), e7]
                  by_cases h8 : 8 * d.length < k + 26
                  · rw [if_pos h8, if_pos h8, PResult.bind_err]
                  · simp only [if_neg h8, PResult.bind_ok]
                    congr 1
                    rw [take_bit_at d (k + 26), e8]
                    by_cases h9 : 8 * d.length < k + 27
                    · rw [if_pos h9, if_pos h9, PResult.bind_err]
                    · simp only [if_neg h9, PResult.bind_ok]
                      congr 1
                      rw [take_bit_at d (k + 27), e9]
                      by_cases h10 : 8 * d.length < k + 28
                      · rw [if_pos h10, if_pos h10, PResult.bind_err]
                      · simp only [if_neg h10, PResult.bind_ok]
                        congr 1
                        rw [map_res_nibble_at ResponseCode.tryFrom d (k + 28), e10]
                        by_cases h11 : 8 * d.length < k + 32
                        · rw [if_pos h11, if_pos h11, PResult.bind_err]
                        · simp only [if_neg h11]
                          cases hrc : ResponseCode.tryFrom (readBits d (k + 28) 4) with
                          | error e => rfl
                          | ok rc =>
                            dsimp only
                            simp only [PResult.bind_ok]
                            rw [take_u16_at d (k + 32), e11]
                            by_cases h12 : 8 * d.length < k + 48
                            · rw [if_pos h12, if_pos h12, PResult.bind_err]
                            · simp only [if_neg h12, PResult.bind_ok]
                              rw [take_u16_at d (k + 48), e12]
                              by_cases h13 : 8 * d.length < k + 64
                              · rw [if_pos h13, if_pos h13, PResult.bind_err]
                              · simp only [if_neg h13, PResult.bind_ok]
                                rw [take_u16_at d (k + 64), e13]
                                by_cases h14 : 8 * d.length < k + 80
                                · rw [if_pos h14, if_pos h14, PResult.bind_err]
                                · simp only [if_neg h14, PResult.bind_ok]
                                  rw [take_u16_at d (k + 80), e14]
                                  by_cases h15 : 8 * d.length < k + 96
                                  · rw [if_pos h15, if_pos h15, PResult.bind_err]
                                  · simp only [if_neg h15, PResult.bind_ok]

theorem deserialize_zero (d : Bytes) : Header.deserialize (d, 0) = decodeAt d 0 := by
  have h := deserialize_eq_decodeAt d 0
  simpa using h

theorem opcode_tryFrom_ok {v : Nat} (h : v < 3) : ∃ op, Opcode.tryFrom v = Except.ok op :=
  match v, h with
  | 0, _ => ⟨.Query, rfl⟩
  | 1, _ => ⟨.InverseQuery, rfl⟩
  | 2, _ => ⟨.Status, rfl⟩
  | n + 3, h => absurd h (by omega)

theorem opcode_tryFrom_err {v : Nat} (h : 3 ≤ v) :
    Opcode.tryFrom v = Except.error ("Unknown opcode " ++ toString v) := by
  obtain ⟨m, rfl⟩ : ∃ m, v = m + 3 := ⟨v - 3, by omega⟩
  rfl

theorem responseCode_tryFrom_ok {v : Nat} (h : v < 6) :
    ∃ rc, ResponseCode.tryFrom v = Except.ok rc :=
  match v, h with
  | 0, _ => ⟨.NoError, rfl⟩
  | 1, _ => ⟨.FormatError, rfl⟩
  | 2, _ => ⟨.ServerFailure, rfl⟩
  | 3, _ => ⟨.NameError, rfl⟩
  | 4, _ => ⟨.NotImplemented, rfl⟩
  | 5, _ => ⟨.Refused, rfl⟩
  | n + 6, h => absurd h (by omega)

theorem responseCode_tryFrom_err {v : Nat} (h : 6 ≤ v) :
    ResponseCode.tryFrom v = Except.error ("Unknown response code " ++ toString v) := by
  obtain ⟨m, rfl⟩ : ∃ m, v = m + 6 := ⟨v - 6, by omega⟩
  rfl

theorem decodeAt_ok_inv {d : Bytes} {k : Nat} {c : BitInput} {hd : Header}
    (h : decodeAt d k = .ok c hd) :
    k + 96 ≤ 8 * d.length ∧ c = (d.drop ((k + 96) / 8), (k + 96) % 8) := by
  unfold decodeAt at h
  by_cases h1 : 8 * d.length < k + 16
  · rw [if_pos h1] at h; exact PResult.noConfusion h
  rw [if_neg h1] at h
  by_cases h2 : 8 * d.length < k + 17
  · rw [if_pos h2] at h; exact PResult.noConfusion h
  rw [if_neg h2] at h
  by_cases h3 : 8 * d.length < k + 21
  · rw [if_pos h3] at h; exact PResult.noConfusion h
  rw [if_neg h3] at h
  cases hop : Opcode.tryFrom (readBits d (k + 17) 4) with
  | error e => rw [hop] at h; exact PResult.noConfusion h
  | ok op =>
  rw [hop] at h
  dsimp only at h
  by_cases h4 : 8 * d.length < k + 22
  · rw [if_pos h4] at h; exact PResult.noConfusion h
  rw [if_neg h4] at h
  by_cases h5 : 8 * d.length < k + 23
  · rw [if_pos h5] at h; exact PResult.noConfusion h
  rw [if_neg h5] at h
  by_cases h6 : 8 * d.length < k + 24
  · rw [if_pos h6] at h; exact PResult.noConfusion h
  rw [if_neg h6] at h
  by_cases h7 : 8 * d.length < k + 25
  · rw [if_pos h7] at h; exact PResult.noConfusion h
  rw [if_neg h7] at h
  by_cases h8 : 8 * d.length < k + 26
  · rw [if_pos h8] at h; exact PResult.noConfusion h
  rw [if_neg h8] at h
  cases hz1 : readBits d (k + 25) 1 != 0 with
  | true => rw [hz1] at h; simp at h
  | false =>
  rw [hz1] at h
  simp only [Bool.false_eq_true, if_false] at h
  by_cases h9 : 8 * d.length < k + 27
  · rw [if_pos h9] at h; exact PResult.noConfusion h
  rw [if_neg h9] at h
  cases hz2 : readBits d (k + 26) 1 != 0 with
  | true => rw [hz2] at h; simp at h
  | false =>
  rw [hz2] at h
  simp only [Bool.false_eq_true, if_false] at h
  by_cases h10 : 8 * d.length < k + 28
  · rw [if_pos h10] at h; exact PResult.noConfusion h
  rw [if_neg h10] at h
  cases hz3 : readBits d (k + 27) 1 != 0 with
  | true => rw [hz3] at h; simp at h
  | false =>
  rw [hz3] at h
  simp only [Bool.false_eq_true, if_false] at h
  by_cases h11 : 8 * d.length < k + 32
  · rw [if_pos h11] at h; exact PResult.noConfusion h
  rw [if_neg h11] at h
  cases hrc : ResponseCode.tryFrom (readBits d (k + 28) 4) with
  | error e => rw [hrc] at h; exact PResult.noConfusion h
  | ok rc =>
  rw [hrc] at h
  dsimp only at h
  by_cases h12 : 8 * d.length < k + 48
  · rw [if_pos h12] at h; exact PResult.noConfusion h
  rw [if_neg h12] at h
  by_cases h13 : 8 * d.length < k + 64
  · rw [if_pos h13] at h; exact PResult.noConfusion h
  rw [if_neg h13] at h
  by_cases h14 : 8 * d.length < k + 80
  · rw [if_pos h14] at h; exact PResult.noConfusion h
  rw [if_neg h14] at h
  by_cases h15 : 8 * d.length < k + 96
  · rw [if_pos h15] at h; exact PResult.noConfusion h
  rw [if_neg h15] at h
  injection h with hc1 hc2
  exact ⟨by omega, hc1.symm⟩

theorem decodeAt_of_ge12 (d : Bytes) (h : 12 ≤ d.length) :
    decodeAt d 0 =
      match Opcode.tryFrom (readBits d 17 4) with
      | .error _ => .err (d.drop 2, 1) .MapRes
      | .ok op =>
        if readBits d 25 1 != 0 then .panicked
        else if readBits d 26 1 != 0 then .panicked
        else if readBits d 27 1 != 0 then .panicked
        else
          match ResponseCode.tryFrom (readBits d 28 4) with
          | .error _ => .err (d.drop 3, 4) .MapRes
          | .ok rc =>
            .ok (d.drop 12, 0)
              { id := readBits d 0 16
                is_query := readBits d 16 1 != 0
                opcode := op
                authoritative_answer := readBits d 21 1 != 0
                truncation := readBits d 22 1 != 0
                recursion_desired := readBits d 23 1 != 0
                recursion_available := readBits d 24 1 != 0
                resp_code := rc
                question_count := readBits d 32 16
                answer_count := readBits d 48 16
                name_server_count := readBits d 64 16
                additional_records_count := readBits d 80 16 } := by
  unfold decodeAt
  simp only [if_neg (show ¬ 8 * d.length < 0 + 16 by omega),
    if_neg (show ¬ 8 * d.length < 0 + 17 by omega),
    if_neg (show ¬ 8 * d.length < 0 + 21 by omega),
    if_neg (show ¬ 8 * d.length < 0 + 22 by omega),
    if_neg (show ¬ 8 * d.length < 0 + 23 by omega),
    if_neg (show ¬ 8 * d.length < 0 + 24 by omega),
    if_neg (show ¬ 8 * d.length < 0 + 25 by omega),
    if_neg (show ¬ 8 * d.length < 0 + 26 by omega),
    if_neg (show ¬ 8 * d.length < 0 + 27 by omega),
    if_neg (show ¬ 8 * d.length < 0 + 28 by omega),
    if_neg (show ¬ 8 * d.length < 0 + 32 by omega),
    if_neg (show ¬ 8 * d.length < 0 + 48 by omega),
    if_neg (show ¬ 8 * d.length < 0 + 64 by omega),
    if_neg (show ¬ 8 * d.length < 0 + 80 by omega),
    if_neg (show ¬ 8 * d.length < 0 + 96 by omega)]

/-- Claim C6: for every buffer, every starting absolute bit offset, and each
of `take_bit` (n = 1), `take_nibble` (n = 4), `take_u16` (n = 16), a
successful extraction returns the unsigned integer formed by reading the n
bits most-significant-bit first from the current offset (`readBits`), the
returned cursor's absolute bit offset equals the old offset plus n (the
arithmetic conjunct spells this out for the suffix-plus-offset cursor
representation), and the underlying byte data is unchanged — the residual
is the suffix `d.drop ((off + n) / 8)` of the same buffer. -/
theorem c6_extraction_semantics (d : Bytes) (off : Nat) :
    (off + 1 ≤ 8 * d.length →
      take_bit (d.drop (off / 8), off % 8)
        = .ok (d.drop ((off + 1) / 8), (off + 1) % 8) (readBits d off 1 != 0)
      ∧ 8 * ((off + 1) / 8) + (off + 1) % 8 = off + 1)
  ∧ (off + 4 ≤ 8 * d.length →
      take_nibble (d.drop (off / 8), off % 8)
        = .ok (d.drop ((off + 4) / 8), (off + 4) % 8) (readBits d off 4)
      ∧ 8 * ((off + 4) / 8) + (off + 4) % 8 = off + 4)
  ∧ (off + 16 ≤ 8 * d.length →
      take_u16 (d.drop (off / 8), off % 8)
        = .ok (d.drop ((off + 16) / 8), (off + 16) % 8) (readBits d off 16)
      ∧ 8 * ((off + 16) / 8) + (off + 16) % 8 = off + 16) := by
  refine ⟨fun h => ⟨?_, by omega⟩, fun h => ⟨?_, by omega⟩, fun h => ⟨?_, by omega⟩⟩
  · rw [take_bit_at d off, if_neg (by omega)]
  · rw [take_nibble_at d off, if_neg (by omega)]
  · rw [take_u16_at d off, if_neg (by omega)]

/-- Witness for C6 at the concrete buffer `respBytes` and offset 3. -/
theorem c6_extraction_semantics_witness :
    (take_bit (respBytes.drop (3 / 8), 3 % 8)
        = .ok (respBytes.drop ((3 + 1) / 8), (3 + 1) % 8) (readBits respBytes 3 1 != 0)
      ∧ 8 * ((3 + 1) / 8) + (3 + 1) % 8 = 3 + 1)
  ∧ (take_nibble (respBytes.drop (3 / 8), 3 % 8)
        = .ok (respBytes.drop ((3 + 4) / 8), (3 + 4) % 8) (readBits respBytes 3 4)
      ∧ 8 * ((3 + 4) / 8) + (3 + 4) % 8 = 3 + 4)
  ∧ (take_u16 (respBytes.drop (3 / 8), 3 % 8)
        = .ok (respBytes.drop ((3 + 16) / 8), (3 + 16) % 8) (readBits respBytes 3 16)
      ∧ 8 * ((3 + 16) / 8) + (3 + 16) % 8 = 3 + 16) :=
  ⟨(c6_extraction_semantics respBytes 3).1 (by decide),
   (c6_extraction_semantics respBytes 3).2.1 (by decide),
   (c6_extraction_semantics respBytes 3).2.2 (by decide)⟩

/-- Claim C7: splitting one n-bit extraction (1 ≤ a < n ≤ 16) into two
sequential extractions of a and n−a bits and concatenating MSB-first equals
the single n-bit extraction, for every buffer and every valid absolute start
bit k (including extractions spanning byte boundaries): both runs succeed,
end at the same cursor, and `v1 * 2^(n-a) + v2 = v`. -/
theorem c7_split_concatenation (d : Bytes) (k n a : Nat) (ha1 : 1 ≤ a)
    (ha2 : a < n) (hn : n ≤ 16) (hav : k + n ≤ 8 * d.length) :
    take a (d.drop (k / 8), k % 8)
      = .ok (d.drop ((k + a) / 8), (k + a) % 8) (readBits d k a)
  ∧ take (n - a) (d.drop ((k + a) / 8), (k + a) % 8)
      = .ok (d.drop ((k + n) / 8), (k + n) % 8) (readBits d (k + a) (n - a))
  ∧ take n (d.drop (k / 8), k % 8)
      = .ok (d.drop ((k + n) / 8), (k + n) % 8) (readBits d k n)
  ∧ readBits d k a * 2 ^ (n - a) + readBits d (k + a) (n - a) = readBits d k n := by
  refine ⟨?_, ?_, ?_, ?_⟩
  · rw [take_at a (by omega) d k, if_neg (by omega)]
  · have h2 := take_at (n - a) (by omega) d (k + a)
    rw [show k + a + (n - a) = k + n by omega] at h2
    rw [h2, if_neg (by omega)]
  · rw [take_at n (by omega) d k, if_neg (by omega)]
  · have h3 := readBits_split d k a (n - a)
    rw [show a + (n - a) = n by omega] at h3
    exact h3.symm

/-- Witness for C7 at the concrete buffer `respBytes`, k = 3, n = 10, a = 5
(an extraction spanning a byte boundary, split mid-way). -/
theorem c7_split_concatenation_witness :
    take 5 (respBytes.drop (3 / 8), 3 % 8)
      = .ok (respBytes.drop ((3 + 5) / 8), (3 + 5) % 8) (readBits respBytes 3 5)
  ∧ take (10 - 5) (respBytes.drop ((3 + 5) / 8), (3 + 5) % 8)
      = .ok (respBytes.drop ((3 + 10) / 8), (3 + 10) % 8) (readBits respBytes (3 + 5) (10 - 5))
  ∧ take 10 (respBytes.drop (3 / 8), 3 % 8)
      = .ok (respBytes.drop ((3 + 10) / 8), (3 + 10) % 8) (readBits respBytes 3 10)
  ∧ readBits respBytes 3 5 * 2 ^ (10 - 5) + readBits respBytes (3 + 5) (10 - 5)
      = readBits respBytes 3 10 :=
  c7_split_concatenation respBytes 3 10 5 (by decide) (by decide) (by decide) (by decide)

/-- Claim C9: the bit-tag parser of `bitstreams_with_nom` reads `count` bits
(1 ≤ count ≤ 8, as fits its `u8` pattern argument) and succeeds exactly when
the extracted value equals the pattern, advancing the cursor by `count` bits
on success; on mismatch it fails with a Pattern-Mismatch error
(`ErrorKind.TagBits`) whose reported cursor is the pre-read position. -/
theorem c9_tag_semantics (e : Bytes) (q pattern count : Nat) (hq : q < 8)
    (hc1 : 1 ≤ count) (hc8 : count ≤ 8) (hav : q + count ≤ 8 * e.length) :
    (readBits e q count = pattern →
      tagWrapper pattern count (e, q)
        = .ok (e.drop ((q + count) / 8), (q + count) % 8) pattern)
  ∧ (readBits e q count ≠ pattern →
      tagWrapper pattern count (e, q) = .err (e, q) .TagBits) := by
  have hview : ((e, q) : BitInput) = (e.drop (q / 8), q % 8) := by
    rw [Nat.div_eq_of_lt hq, Nat.mod_eq_of_lt hq, List.drop_zero]
  have ht : take count (e, q)
      = .ok (e.drop ((q + count) / 8), (q + count) % 8) (readBits e q count) := by
    rw [hview, take_at count (by omega) e q, if_neg (by omega)]
  constructor
  · intro hm
    unfold tagWrapper tag
    rw [ht]
    dsimp only
    rw [if_pos hm.symm, hm]
  · intro hm
    unfold tagWrapper tag
    rw [ht]
    dsimp only
    rw [if_neg (fun hcontra => hm hcontra.symm)]

/-- Witness for C9: pattern 0b1111 matches the first nibble of `[0xFF]` and
the parser advances 4 bits; pattern 0b01 does not match the first two bits
and the parser reports `TagBits` at the unmoved cursor. -/
theorem c9_tag_semantics_witness :
    tagWrapper 15 4 (([⟨255, by omega⟩] : Bytes), 0)
      = .ok (([⟨255, by omega⟩] : Bytes).drop ((0 + 4) / 8), (0 + 4) % 8) 15
  ∧ tagWrapper 1 2 (([⟨255, by omega⟩] : Bytes), 0)
      = .err (([⟨255, by omega⟩] : Bytes), 0) .TagBits :=
  ⟨(c9_tag_semantics [⟨255, by omega⟩] 0 15 4 (by decide) (by decide) (by decide)
      (by decide)).1 (by decide),
   (c9_tag_semantics [⟨255, by omega⟩] 0 1 2 (by decide) (by decide) (by decide)
      (by decide)).2 (by decide)⟩

/-- Claim C1 (code bug, evaluated at a failing input): on the spec's
concrete scenario bytes the QR bit (`readBits respBytes 16 1`) is 1, the
decode succeeds, and the decoded `is_query` field is `true` — the raw bit,
not its negation as the claim requires: `Header::deserialize` assigns
`is_query: qr` without negating. -/
theorem c1_is_query_stores_raw_bit :
    readBits respBytes 16 1 = 1
      ∧ decodedHeader (Header.deserialize (respBytes, 0)) = some respHeader
      ∧ respHeader.is_query = true := by
  refine ⟨by decide, by decide, rfl⟩

/-- Claim C2 (code bug, evaluated at a failing input): on a well-formed
header whose third reserved (Z) bit is 1, `Header::deserialize` panics
(`assert!(!z)`) instead of returning a typed error value — the run ends in
`PResult.panicked`, which is neither an `ok` nor an `err` result. -/
theorem c2_reserved_bits_aborts :
    readBits zNonzeroBytes 27 1 = 1
      ∧ Header.deserialize (zNonzeroBytes, 0) = .panicked := by
  refine ⟨by decide, by decide⟩

/-- Counterexample for claim C5: on the spec's concrete scenario bytes the
decode does not yield the header asserted by the spec (which demands
`is_query = false` and `recursion_desired = false`). -/
theorem c5_counterexample :
    decodedHeader (Header.deserialize (respBytes, 0)) ≠ some specClaimHeader := by
  decide

/-- Claim C5 as amended: on the scenario bytes the decode succeeds,
consumes all 12 bytes, and yields `id = 1`, `is_query = true` (the code
stores the raw QR bit without negating it), `opcode = Query`, `aa = false`,
`tc = false`, `recursion_desired = true` (byte 0x81 has the RD bit set),
`recursion_available = true`, `resp_code = NoError`, `qdcount = 1`,
`ancount = 1`, `nscount = 0`, `arcount = 0`. -/
theorem c5_amended_scenario :
    Header.deserialize (respBytes, 0) = .ok ([], 0) respHeader := by
  decide

theorem toOutcome_err_drop (d : Bytes) (j r : Nat) (k2 : ErrorKind) (hj : j ≤ d.length) :
    toOutcome d (.err (d.drop j, r) k2) = .failure k2 (8 * j + r) := by
  show Outcome.failure k2 ((d.length - (d.drop j).length) * 8 + r) = _
  rw [List.length_drop]
  congr 1
  omega

theorem toOutcome_ok_drop (d : Bytes) (j r : Nat) (hdr : Header) (hj : j ≤ d.length) :
    toOutcome d (.ok (d.drop j, r) hdr) = .success hdr (8 * j + r) := by
  show Outcome.success hdr ((d.length - (d.drop j).length) * 8 + r) = _
  rw [List.length_drop]
  congr 1
  omega

/-- Claim C3: whenever the 4-bit opcode field (bits 17..20) holds a value in
3..=15 and the field is in range, `Header::deserialize` fails at the opcode
field (nom's `MapRes` error at bit position 17, i.e. cursor `(d.drop 2, 1)`)
and the underlying `Opcode::try_from` error carries the raw value in its
message; likewise, when all earlier fields are valid and the 4-bit
response-code field (bits 28..31) holds a value outside {0,...,5}, the
decode fails at the response-code field (`MapRes` at bit 28, cursor
`(d.drop 3, 4)`) with the Unknown ResponseCode error carrying the raw value.
In neither case is a default substituted: the decode returns no header. -/
theorem c3_unknown_enumerants (d : Bytes) :
    (21 ≤ 8 * d.length → 3 ≤ readBits d 17 4 →
      Header.deserialize (d, 0) = .err (d.drop 2, 1) .MapRes
        ∧ Opcode.tryFrom (readBits d 17 4)
            = Except.error ("Unknown opcode " ++ toString (readBits d 17 4)))
  ∧ (32 ≤ 8 * d.length → readBits d 17 4 < 3 →
      readBits d 25 1 = 0 → readBits d 26 1 = 0 → readBits d 27 1 = 0 →
      6 ≤ readBits d 28 4 →
      Header.deserialize (d, 0) = .err (d.drop 3, 4) .MapRes
        ∧ ResponseCode.tryFrom (readBits d 28 4)
            = Except.error ("Unknown response code " ++ toString (readBits d 28 4))) := by
  constructor
  · intro hlen hop
    refine ⟨?_, opcode_tryFrom_err hop⟩
    rw [deserialize_zero]
    unfold decodeAt
    simp only [Nat.zero_add]
    rw [if_neg (show ¬ 8 * d.length < 16 by omega),
      if_neg (show ¬ 8 * d.length < 17 by omega),
      if_neg (show ¬ 8 * d.length < 21 by omega),
      opcode_tryFrom_err hop]
  · intro hlen hop hz1 hz2 hz3 hrc
    refine ⟨?_, responseCode_tryFrom_err hrc⟩
    rw [deserialize_zero]
    unfold decodeAt
    simp only [Nat.zero_add, hz1, hz2, hz3, show ((0 : Nat) != 0) = false from rfl,
      Bool.false_eq_true, if_false]
    rw [if_neg (show ¬ 8 * d.length < 16 by omega),
      if_neg (show ¬ 8 * d.length < 17 by omega),
      if_neg (show ¬ 8 * d.length < 21 by omega)]
    obtain ⟨op, hopc⟩ := opcode_tryFrom_ok hop
    rw [hopc]
    dsimp only
    rw [if_neg (show ¬ 8 * d.length < 22 by omega),
      if_neg (show ¬ 8 * d.length < 23 by omega),
      if_neg (show ¬ 8 * d.length < 24 by omega),
      if_neg (show ¬ 8 * d.length < 25 by omega),
      if_neg (show ¬ 8 * d.length < 26 by omega),
      if_neg (show ¬ 8 * d.length < 27 by omega),
      if_neg (show ¬ 8 * d.length < 28 by omega),
      if_neg (show ¬ 8 * d.length < 32 by omega),
      responseCode_tryFrom_err hrc]

/-- Witness for C3: the 3-byte buffer `shortBadOpcode` has opcode 3 and
fails at the opcode field; the 4-byte buffer [0,0,0,6] has a valid opcode,
zero reserved bits and response code 6, and fails at the response-code
field. -/
theorem c3_unknown_enumerants_witness :
    (Header.deserialize (shortBadOpcode, 0) = .err (shortBadOpcode.drop 2, 1) .MapRes
      ∧ Opcode.tryFrom (readBits shortBadOpcode 17 4)
          = Except.error ("Unknown opcode " ++ toString (readBits shortBadOpcode 17 4)))
  ∧ (Header.deserialize (([0, 0, 0, 6] : Bytes), 0)
        = .err (([0, 0, 0, 6] : Bytes).drop 3, 4) .MapRes
      ∧ ResponseCode.tryFrom (readBits ([0, 0, 0, 6] : Bytes) 28 4)
          = Except.error
              ("Unknown response code " ++ toString (readBits ([0, 0, 0, 6] : Bytes) 28 4))) :=
  ⟨(c3_unknown_enumerants shortBadOpcode).1 (by decide) (by decide),
   (c3_unknown_enumerants [0, 0, 0, 6]).2 (by decide) (by decide) (by decide) (by decide)
     (by decide) (by decide)⟩

/-- Claim C4: whenever `Header::deserialize` succeeds, the residual cursor
is advanced by exactly 96 bits relative to the starting position (cursor
`(e, q)` with `q < 8`), regardless of the decoded field values: the residual
is the suffix of the same buffer at bit position q + 96, the consumed bit
count is exactly 96, and starting from bit offset 0 the residual is
byte-aligned at byte offset 12. -/
theorem c4_consumes_96_bits (e : Bytes) (q : Nat) (c : BitInput) (hd : Header)
    (hq : q < 8) (h : Header.deserialize (e, q) = .ok c hd) :
    c = (e.drop ((q + 96) / 8), (q + 96) % 8)
      ∧ (e.length - c.1.length) * 8 + c.2 = q + 96
      ∧ (q = 0 → c = (e.drop 12, 0)) := by
  have hview : ((e, q) : BitInput) = (e.drop (q / 8), q % 8) := by
    rw [Nat.div_eq_of_lt hq, Nat.mod_eq_of_lt hq, List.drop_zero]
  rw [hview, deserialize_eq_decodeAt] at h
  obtain ⟨hav, hc⟩ := decodeAt_ok_inv h
  subst hc
  refine ⟨rfl, ?_, ?_⟩
  · dsimp only
    rw [List.length_drop]
    omega
  · intro hq0
    subst hq0
    norm_num

/-- Witness for C4 at the concrete scenario input, which succeeds with an
empty residual at bit offset 0 + 96. -/
theorem c4_consumes_96_bits_witness :
    (([], 0) : BitInput) = (respBytes.drop ((0 + 96) / 8), (0 + 96) % 8)
      ∧ (respBytes.length - (([], 0) : BitInput).1.length) * 8 + (([], 0) : BitInput).2
          = 0 + 96
      ∧ ((0 : Nat) = 0 → (([], 0) : BitInput) = (respBytes.drop 12, 0)) :=
  c4_consumes_96_bits respBytes 0 ([], 0) respHeader (by omega) (by decide)

/-- Counterexample for claim C8: the 3-byte buffer `shortBadOpcode` is
shorter than 12 bytes, yet the decode does not fail with Insufficient Input
(`Eof`) — its opcode field holds 3, so the Unknown-Opcode (`MapRes`) failure
preempts the length failure. -/
theorem c8_counterexample :
    errKindOf (Header.deserialize (shortBadOpcode, 0)) ≠ some ErrorKind.Eof := by
  decide

/-- Claim C8 as amended: for every buffer shorter than 12 bytes whose
fully-contained fields are all valid (opcode < 3, reserved bits zero,
response code < 6, whenever those fields lie wholly within the buffer),
`Header::deserialize` at bit offset 0 fails with an Insufficient-Input
(`Eof`) error whose reported cursor is the start of the first field whose
bits extend past the end of the buffer (`failPos`); no field is zero-padded
or read past the end. -/
theorem c8_truncated_input (d : Bytes) (hlen : d.length < 12)
    (hop : 21 ≤ 8 * d.length → readBits d 17 4 < 3)
    (hz1 : 26 ≤ 8 * d.length → readBits d 25 1 = 0)
    (hz2 : 27 ≤ 8 * d.length → readBits d 26 1 = 0)
    (hz3 : 28 ≤ 8 * d.length → readBits d 27 1 = 0)
    (hrc : 32 ≤ 8 * d.length → readBits d 28 4 < 6) :
    Header.deserialize (d, 0)
      = .err (d.drop (failPos (8 * d.length) / 8), failPos (8 * d.length) % 8) .Eof := by
  rw [deserialize_zero]
  unfold decodeAt
  simp only [Nat.zero_add]
  have h12 : d.length = 0 ∨ d.length = 1 ∨ d.length = 2 ∨ d.length = 3 ∨ d.length = 4
      ∨ d.length = 5 ∨ d.length = 6 ∨ d.length = 7 ∨ d.length = 8 ∨ d.length = 9
      ∨ d.length = 10 ∨ d.length = 11 := by omega
  rcases h12 with hl | hl | hl | hl | hl | hl | hl | hl | hl | hl | hl | hl
  · rw [hl]; norm_num [failPos]
  · rw [hl]; norm_num [failPos]
  · rw [hl]; norm_num [failPos]
  · rw [hl]
    obtain ⟨op, hopc⟩ := opcode_tryFrom_ok (hop (by omega))
    rw [hopc]
    dsimp only
    norm_num [failPos]
  · rw [hl]
    obtain ⟨op, hopc⟩ := opcode_tryFrom_ok (hop (by omega))
    rw [hopc]
    dsimp only
    rw [hz1 (by omega), hz2 (by omega), hz3 (by omega)]
    obtain ⟨rc, hrcc⟩ := responseCode_tryFrom_ok (hrc (by omega))
    rw [hrcc]
    dsimp only
    norm_num [failPos]
  · rw [hl]
    obtain ⟨op, hopc⟩ := opcode_tryFrom_ok (hop (by omega))
    rw [hopc]
    dsimp only
    rw [hz1 (by omega), hz2 (by omega), hz3 (by omega)]
    obtain ⟨rc, hrcc⟩ := responseCode_tryFrom_ok (hrc (by omega))
    rw [hrcc]
    dsimp only
    norm_num [failPos]
  · rw [hl]
    obtain ⟨op, hopc⟩ := opcode_tryFrom_ok (hop (by omega))
    rw [hopc]
    dsimp only
    rw [hz1 (by omega), hz2 (by omega), hz3 (by omega)]
    obtain ⟨rc, hrcc⟩ := responseCode_tryFrom_ok (hrc (by omega))
    rw [hrcc]
    dsimp only
    norm_num [failPos]
  · rw [hl]
    obtain ⟨op, hopc⟩ := opcode_tryFrom_ok (hop (by omega))
    rw [hopc]
    dsimp only
    rw [hz1 (by omega), hz2 (by omega), hz3 (by omega)]
    obtain ⟨rc, hrcc⟩ := responseCode_tryFrom_ok (hrc (by omega))
    rw [hrcc]
    dsimp only
    norm_num [failPos]
  · rw [hl]
    obtain ⟨op, hopc⟩ := opcode_tryFrom_ok (hop (by omega))
    rw [hopc]
    dsimp only
    rw [hz1 (by omega), hz2 (by omega), hz3 (by omega)]
    obtain ⟨rc, hrcc⟩ := responseCode_tryFrom_ok (hrc (by omega))
    rw [hrcc]
    dsimp only
    norm_num [failPos]
  · rw [hl]
    obtain ⟨op, hopc⟩ := opcode_tryFrom_ok (hop (by omega))
    rw [hopc]
    dsimp only
    rw [hz1 (by omega), hz2 (by omega), hz3 (by omega)]
    obtain ⟨rc, hrcc⟩ := responseCode_tryFrom_ok (hrc (by omega))
    rw [hrcc]
    dsimp only
    norm_num [failPos]
  · rw [hl]
    obtain ⟨op, hopc⟩ := opcode_tryFrom_ok (hop (by omega))
    rw [hopc]
    dsimp only
    rw [hz1 (by omega), hz2 (by omega), hz3 (by omega)]
    obtain ⟨rc, hrcc⟩ := responseCode_tryFrom_ok (hrc (by omega))
    rw [hrcc]
    dsimp only
    norm_num [failPos]
  · rw [hl]
    obtain ⟨op, hopc⟩ := opcode_tryFrom_ok (hop (by omega))
    rw [hopc]
    dsimp only
    rw [hz1 (by omega), hz2 (by omega), hz3 (by omega)]
    obtain ⟨rc, hrcc⟩ := responseCode_tryFrom_ok (hrc (by omega))
    rw [hrcc]
    dsimp only
    norm_num [failPos]

/-- Witness for C8 at the 2-byte buffer `twoBytes`: data runs out at the QR
bit, so the decode fails with `Eof` at bit position 16 (cursor at byte 2,
bit 0). -/
theorem c8_truncated_input_witness :
    Header.deserialize (twoBytes, 0)
      = .err (twoBytes.drop (failPos (8 * twoBytes.length) / 8),
          failPos (8 * twoBytes.length) % 8) .Eof :=
  c8_truncated_input twoBytes (by decide) (fun h => absurd h (by decide))
    (fun h => absurd h (by decide)) (fun h => absurd h (by decide))
    (fun h => absurd h (by decide)) (fun h => absurd h (by decide))

/-- Claim C10: deserialization at bit offset 0 depends only on the first 12
bytes of the input: any two buffers of length at least 12 that agree on
their first 12 bytes produce the same outcome — identical header field
values and identical number of bits consumed on success, the same error
kind at the same absolute bit position on failure, or a panic in both
runs. -/
theorem c10_first_12_bytes (d1 d2 : Bytes) (h1 : 12 ≤ d1.length)
    (h2 : 12 ≤ d2.length) (hag : d1.take 12 = d2.take 12) :
    toOutcome d1 (Header.deserialize (d1, 0))
      = toOutcome d2 (Header.deserialize (d2, 0)) := by
  rw [deserialize_zero, deserialize_zero, decodeAt_of_ge12 d1 h1, decodeAt_of_ge12 d2 h2]
  have ha : ∀ p n : Nat, p + n ≤ 96 → readBits d2 p n = readBits d1 p n := fun p n h =>
    (readBits_agree 12 hag p n (by omega)).symm
  rw [ha 17 4 (by omega), ha 25 1 (by omega), ha 26 1 (by omega), ha 27 1 (by omega),
    ha 28 4 (by omega), ha 0 16 (by omega), ha 16 1 (by omega), ha 21 1 (by omega),
    ha 22 1 (by omega), ha 23 1 (by omega), ha 24 1 (by omega), ha 32 16 (by omega),
    ha 48 16 (by omega), ha 64 16 (by omega), ha 80 16 (by omega)]
  cases hop : Opcode.tryFrom (readBits d1 17 4) with
  | error e =>
    dsimp only
    rw [toOutcome_err_drop d1 2 1 .MapRes (by omega),
      toOutcome_err_drop d2 2 1 .MapRes (by omega)]
  | ok op =>
    dsimp only
    cases hz1 : readBits d1 25 1 != 0 with
    | true => rfl
    | false =>
    simp only [Bool.false_eq_true, if_false]
    cases hz2 : readBits d1 26 1 != 0 with
    | true => rfl
    | false =>
    simp only [Bool.false_eq_true, if_false]
    cases hz3 : readBits d1 27 1 != 0 with
    | true => rfl
    | false =>
    simp only [Bool.false_eq_true, if_false]
    cases hrc : ResponseCode.tryFrom (readBits d1 28 4) with
    | error e2 =>
      dsimp only
      rw [toOutcome_err_drop d1 3 4 .MapRes (by omega),
        toOutcome_err_drop d2 3 4 .MapRes (by omega)]
    | ok rc =>
      dsimp only
      rw [toOutcome_ok_drop d1 12 0 _ (by omega), toOutcome_ok_drop d2 12 0 _ (by omega)]

/-- Witness for C10: twelve zero bytes, with and without a trailing extra
0xFF byte, decode to the same outcome. -/
theorem c10_first_12_bytes_witness :
    toOutcome twelveZeros (Header.deserialize (twelveZeros, 0))
      = toOutcome twelveZerosExt (Header.deserialize (twelveZerosExt, 0)) :=
  c10_first_12_bytes twelveZeros twelveZerosExt (by decide) (by decide) (by decide)
